import Mathlib

/-!
Verification development for the RedBus-Bus-Reviews repository.

The Lean definitions below are shallow embeddings of the Python source:

* `src/sentiment/analyzer.py` — lexicon-based sentiment classification
  (`SentimentAnalyzer.analyze`); the underlying VADER scorer is an external
  dependency and is modelled as an arbitrary function `String → ℚ`.
* `src/etl/process_reviews.py` — the ETL pipeline (`load_raw_files`,
  `clean_dataframe`, `apply_sentiment`, `aggregate_bus_metrics`, `persist`);
  pandas dataframes are modelled as either the column-less empty frame
  `pd.DataFrame()` or a list of typed rows, with missing entries (`NaN`) as
  `Option.none`; the general date parser `pd.to_datetime(errors := coerce)`
  is an external dependency and is taken as a parameter.
* `src/scraper/parsers.py` — `_format_review_date`, a faithful model of
  `datetime.strptime` restricted to the three formats the code tries.
* `src/db/load.py` — the loader transaction (`main`, `load_buses`,
  `load_reviews`, `parse_date`) over an explicit session-state machine.
* `src/app.py` — the dashboard filter function `apply_filters`.
-/

namespace RedBus

/-! ## Sentiment analyzer (`src/sentiment/analyzer.py`) -/

/-- Result record returned by `SentimentAnalyzer.analyze`. -/
structure SentimentResult where
  label : String
  score : ℚ
deriving DecidableEq

/-- Threshold constant `SentimentAnalyzer.POSITIVE_THRESHOLD = 0.05`. -/
def POSITIVE_THRESHOLD : ℚ := 5 / 100

/-- Threshold constant `SentimentAnalyzer.NEGATIVE_THRESHOLD = -0.05`. -/
def NEGATIVE_THRESHOLD : ℚ := -(5 / 100)

/-- Embedding of `SentimentAnalyzer.analyze`.  The VADER compound polarity
scorer (`_vader().polarity_scores(text)["compound"]`) is passed in as the
function `scorer`; a `none` text models an absent value and the Python guard
`if not text` also catches the empty string. -/
def analyze (scorer : String → ℚ) (text : Option String) : SentimentResult :=
  match text with
  | none => { label := "neutral", score := 0 }
  | some t =>
    if t = "" then { label := "neutral", score := 0 }
    else
      let compound := scorer t
      if compound ≥ POSITIVE_THRESHOLD then { label := "positive", score := compound }
      else if compound ≤ NEGATIVE_THRESHOLD then { label := "negative", score := compound }
      else { label := "neutral", score := compound }

/-- C1: for every text input, `SentimentAnalyzer.analyze` returns label
`"positive"` when the compound polarity is `≥ 0.05`, `"negative"` when it is
`≤ -0.05`, and `"neutral"` otherwise, with the returned score equal to the
compound value; and for empty or absent text it returns exactly
`{label := "neutral", score := 0.0}` independently of the underlying scorer
(the scorer is universally quantified, so it is never consulted). -/
theorem sentiment_C1 (scorer : String → ℚ) (t : String) (h : t ≠ "") :
    analyze scorer none = { label := "neutral", score := 0 } ∧
    analyze scorer (some "") = { label := "neutral", score := 0 } ∧
    analyze scorer (some t) =
      { label :=
          if scorer t ≥ POSITIVE_THRESHOLD then "positive"
          else if scorer t ≤ NEGATIVE_THRESHOLD then "negative"
          else "neutral",
        score := scorer t } := by
  refine ⟨rfl, rfl, ?_⟩
  simp only [analyze, if_neg h]
  split_ifs <;> rfl

/-- C1 witness: the classification theorem applied at a concrete scorer and
concrete non-empty text. -/
theorem sentiment_C1_witness :
    analyze (fun _ => (1 : ℚ)) none = { label := "neutral", score := 0 } ∧
    analyze (fun _ => (1 : ℚ)) (some "good") = { label := "positive", score := 1 } := by
  have h := sentiment_C1 (fun _ => (1 : ℚ)) "good" (by decide)
  refine ⟨h.1, ?_⟩
  rw [h.2.2]
  norm_num [POSITIVE_THRESHOLD]

/-! ## String helpers shared by the scraper and the ETL pipeline -/

/-- Accumulator worker splitting characters into maximal whitespace-free
runs, mirroring both `re.split` on whitespace and Python `str.split()`. -/
def wordsAux : List Char → List Char → List (List Char)
  | [], acc => if acc = [] then [] else [acc.reverse]
  | c :: rest, acc =>
    if c.isWhitespace then
      if acc = [] then wordsAux rest [] else acc.reverse :: wordsAux rest []
    else wordsAux rest (c :: acc)

/-- Maximal whitespace-free runs of a character list (Python `str.split()`). -/
def words (cs : List Char) : List (List Char) := wordsAux cs []

/-- Join character runs with a single space. -/
def joinWords : List (List Char) → List Char
  | [] => []
  | [w] => w
  | w :: ws => w ++ ' ' :: joinWords ws

/-- Embedding of the pandas normalisation
`col.fillna("").str.replace(r"\s+", " ", regex=True).str.strip()` applied to a
single cell: each maximal whitespace run collapses to one space and the ends
are trimmed, which is the same as joining the whitespace-separated tokens by
single spaces. -/
def normText (s : String) : String := String.mk (joinWords (words s.data))

/-- Python `str.strip()` on a character list: drop leading and trailing
whitespace. -/
def stripChars (cs : List Char) : List Char :=
  ((cs.dropWhile Char.isWhitespace).reverse.dropWhile Char.isWhitespace).reverse

/-- Python `str.strip()` on strings. -/
def pyStrip (s : String) : String := String.mk (stripChars s.data)

/-! ## Scraper route parsing (`RedBusScraper._parse_route`) -/

/-- Accumulator worker for Python `route.split(",", 1)`: find the first comma
and return the parts before and after it, or `none` when there is no comma. -/
def splitFirstAux : List Char → List Char → Option (List Char × List Char)
  | [], _ => none
  | c :: cs, acc => if c = ',' then some (acc, cs) else splitFirstAux cs (acc ++ [c])

/-- Python `route.split(",", 1)` reduced to its two outcomes: `some (o, d)`
when a comma exists (split at the first one) and `none` otherwise. -/
def splitFirstComma (cs : List Char) : Option (List Char × List Char) :=
  splitFirstAux cs []

/-- Error message raised by `RedBusScraper._parse_route` on a malformed
route. -/
def ROUTE_ERR : String := "Route must be provided as 'Origin,Destination'"

/-- Embedding of `RedBusScraper._parse_route`: split the route on the first
comma and strip whitespace from both parts; a route without a comma makes the
two-element unpacking fail, which the code converts into a `ValueError` with
message `ROUTE_ERR`. -/
def parse_route (route : String) : Except String (String × String) :=
  match splitFirstComma route.data with
  | some (o, d) => .ok (pyStrip (String.mk o), pyStrip (String.mk d))
  | none => .error ROUTE_ERR

/-- Splitting a list that carries a comma after a comma-free part finds
exactly that first comma. -/
theorem splitFirstAux_append (o rest acc : List Char) (h : ',' ∉ o) :
    splitFirstAux (o ++ ',' :: rest) acc = some (acc ++ o, rest) := by
  induction o generalizing acc with
  | nil => simp [splitFirstAux]
  | cons c o ih =>
    have hc : c ≠ ',' := fun hceq => h (hceq ▸ List.mem_cons_self c o)
    have ho : ',' ∉ o := fun hm => h (List.mem_cons_of_mem c hm)
    rw [List.cons_append]
    simp only [splitFirstAux, if_neg hc]
    rw [ih (acc ++ [c]) ho]
    simp [List.append_assoc]

/-- Splitting a comma-free list yields no parts. -/
theorem splitFirstAux_none (cs : List Char) (h : ',' ∉ cs) (acc : List Char) :
    splitFirstAux cs acc = none := by
  induction cs generalizing acc with
  | nil => rfl
  | cons c cs ih =>
    have hc : c ≠ ',' := fun hceq => h (hceq ▸ List.mem_cons_self c cs)
    have hcs : ',' ∉ cs := fun hm => h (List.mem_cons_of_mem c hm)
    simp only [splitFirstAux, if_neg hc, ih hcs]

/-- C9: route parsing splits on the first comma and trims whitespace from
both parts, and it fails with the InvalidInput-style `ValueError` exactly
when the input contains no comma; in particular `"Chennai, Bangalore"` yields
`("Chennai", "Bangalore")` and `"Chennai"` fails. -/
theorem scraper_C9 :
    (∀ o rest : List Char, ',' ∉ o →
      parse_route (String.mk (o ++ ',' :: rest)) =
        .ok (pyStrip (String.mk o), pyStrip (String.mk rest))) ∧
    (∀ s : String, ',' ∉ s.data → parse_route s = .error ROUTE_ERR) ∧
    parse_route "Chennai, Bangalore" = .ok ("Chennai", "Bangalore") ∧
    parse_route "Chennai" = .error ROUTE_ERR := by
  refine ⟨?_, ?_, ?_, ?_⟩
  · intro o rest h
    simp [parse_route, splitFirstComma, splitFirstAux_append o rest [] h]
  · intro s h
    simp [parse_route, splitFirstComma, splitFirstAux_none s.data h []]
  · rfl
  · rfl

/-- C9 witness: the general comma-splitting clause applied at a concrete
route. -/
theorem scraper_C9_witness :
    parse_route (String.mk (['A', ' '] ++ ',' :: [' ', 'B'])) = .ok ("A", "B") := by
  have h := scraper_C9.1 ['A', ' '] [' ', 'B'] (by decide)
  rw [h]
  rfl

/-! ## Calendar dates and `datetime.strptime` (`src/scraper/parsers.py`) -/

/-- Calendar date record produced by a successful `datetime.strptime`. -/
structure YMD where
  y : ℕ
  m : ℕ
  d : ℕ
deriving DecidableEq

/-- Gregorian leap-year rule used by `datetime`. -/
def isLeap (y : ℕ) : Bool := (y % 4 == 0 && y % 100 != 0) || y % 400 == 0

/-- Number of days of month `m` in year `y`. -/
def daysInMonth (y m : ℕ) : ℕ :=
  if m = 2 then (if isLeap y then 29 else 28)
  else if m = 4 ∨ m = 6 ∨ m = 9 ∨ m = 11 then 30
  else 31

/-- Validity of a date for `datetime(year, month, day)`: Python supports
years 1 to 9999 and checks the day against the month length. -/
def validYMD (y m d : ℕ) : Bool :=
  decide (1 ≤ y ∧ y ≤ 9999 ∧ 1 ≤ m ∧ m ≤ 12 ∧ 1 ≤ d ∧ d ≤ daysInMonth y m)

/-- Numeric value of a decimal digit character, `none` on non-digits. -/
def digitVal (c : Char) : Option ℕ :=
  if c.isDigit then some (c.toNat - 48) else none

/-- Decimal digit character for a value below ten. -/
def dch (k : ℕ) : Char := Char.ofNat (48 + k)

/-- Two-digit zero-padded decimal rendering (`%02d`). -/
def pad2 (n : ℕ) : List Char := [dch (n / 10), dch (n % 10)]

/-- Four-digit zero-padded decimal rendering (`%04d`, the documented
behaviour of `strftime("%Y")`). -/
def pad4 (n : ℕ) : List Char :=
  [dch (n / 1000), dch (n / 100 % 10), dch (n / 10 % 10), dch (n % 10)]

/-- Rendering of `strftime("%Y-%m-%d")`. -/
def fmtIsoYMD (x : YMD) : String :=
  String.mk (pad4 x.y ++ ('-' :: (pad2 x.m ++ ('-' :: pad2 x.d))))

/-- Parse exactly four decimal digits (the `strptime` pattern for `%Y`). -/
def parse4 : List Char → Option (ℕ × List Char)
  | a :: b :: c :: d :: rest => do
    let va ← digitVal a
    let vb ← digitVal b
    let vc ← digitVal c
    let vd ← digitVal d
    pure (va * 1000 + vb * 100 + vc * 10 + vd, rest)
  | _ => none

/-- Candidate parses, in regex alternation order, for the `strptime`
patterns of `%d` (`hi = 31`, pattern `3[01]|[12]\d|0[1-9]|[1-9]`) and `%m`
(`hi = 12`, pattern `1[0-2]|0[1-9]|[1-9]`): a two-digit match whose value
lies in `1..hi` is tried before a single nonzero digit. -/
def parse2or1 (hi : ℕ) : List Char → List (ℕ × List Char)
  | a :: b :: rest =>
    match digitVal a, digitVal b with
    | some va, some vb =>
      let v := va * 10 + vb
      (if 1 ≤ v ∧ v ≤ hi then [(v, rest)] else []) ++
        (if 1 ≤ va then [(va, b :: rest)] else [])
    | some va, none => if 1 ≤ va then [(va, b :: rest)] else []
    | none, _ => []
  | [a] =>
    match digitVal a with
    | some va => if 1 ≤ va then [(va, [])] else []
    | none => []
  | [] => []

/-- Try parse candidates in order, keeping the first success — the
backtracking discipline of the compiled `strptime` regex. -/
def tryCands {α : Type} (k : ℕ → List Char → Option α) :
    List (ℕ × List Char) → Option α
  | [] => none
  | (v, rest) :: more =>
    match k v rest with
    | some x => some x
    | none => tryCands k more

/-- Consume one expected literal character. -/
def litC (c : Char) : List Char → Option (List Char)
  | x :: rest => if x = c then some rest else none
  | [] => none

/-- Case-insensitive abbreviated month name (`strptime` pattern for `%b`,
which matches under `re.IGNORECASE`). -/
def abbrToMonth (a b c : Char) : Option ℕ :=
  match a.toLower, b.toLower, c.toLower with
  | 'j', 'a', 'n' => some 1
  | 'f', 'e', 'b' => some 2
  | 'm', 'a', 'r' => some 3
  | 'a', 'p', 'r' => some 4
  | 'm', 'a', 'y' => some 5
  | 'j', 'u', 'n' => some 6
  | 'j', 'u', 'l' => some 7
  | 'a', 'u', 'g' => some 8
  | 's', 'e', 'p' => some 9
  | 'o', 'c', 't' => some 10
  | 'n', 'o', 'v' => some 11
  | 'd', 'e', 'c' => some 12
  | _, _, _ => none

/-- Parse an abbreviated month name (`%b`). -/
def parseAbbr : List Char → Option (ℕ × List Char)
  | a :: b :: c :: rest => (abbrToMonth a b c).map (fun m => (m, rest))
  | _ => none

/-- Final step of one `strptime` attempt: the whole string must have been
consumed (no unconverted data) and the date must be constructible by
`datetime`; any failure raises `ValueError`, which the caller turns into
trying the next format. -/
def checkDone (y m d : ℕ) (rest : List Char) : Option YMD :=
  if rest = [] ∧ validYMD y m d then some ⟨y, m, d⟩ else none

/-- Embedding of `datetime.strptime(raw, "%d %b %Y")`. -/
def parseDMonY (cs : List Char) : Option YMD :=
  tryCands
    (fun d cs1 => do
      let cs2 ← litC ' ' cs1
      let (m, cs3) ← parseAbbr cs2
      let cs4 ← litC ' ' cs3
      let (y, cs5) ← parse4 cs4
      checkDone y m d cs5)
    (parse2or1 31 cs)

/-- Embedding of `datetime.strptime(raw, "%Y-%m-%d")`. -/
def parseIsoFmt (cs : List Char) : Option YMD := do
  let (y, cs1) ← parse4 cs
  let cs2 ← litC '-' cs1
  tryCands
    (fun m cs3 => do
      let cs4 ← litC '-' cs3
      tryCands (fun d cs5 => checkDone y m d cs5) (parse2or1 31 cs4))
    (parse2or1 12 cs2)

/-- Embedding of `datetime.strptime(raw, "%d-%m-%Y")`. -/
def parseDMY (cs : List Char) : Option YMD :=
  tryCands
    (fun d cs1 => do
      let cs2 ← litC '-' cs1
      tryCands
        (fun m cs3 => do
          let cs4 ← litC '-' cs3
          let (y, cs5) ← parse4 cs4
          checkDone y m d cs5)
        (parse2or1 12 cs2))
    (parse2or1 31 cs)

/-- Embedding of `_format_review_date`: empty or absent text yields `none`,
otherwise the three formats are tried in the fixed order
`"%d %b %Y"`, `"%Y-%m-%d"`, `"%d-%m-%Y"`; the first successful parse is
re-rendered as `"%Y-%m-%d"` and a string matching no format yields `none`. -/
def format_review_date (raw : Option String) : Option String :=
  match raw with
  | none => none
  | some s =>
    if s = "" then none
    else
      match parseDMonY s.data with
      | some x => some (fmtIsoYMD x)
      | none =>
        match parseIsoFmt s.data with
        | some x => some (fmtIsoYMD x)
        | none =>
          match parseDMY s.data with
          | some x => some (fmtIsoYMD x)
          | none => none

/-- Canonical abbreviated month name used when a date is rendered in the
`"day abbreviated-month year"` textual form. -/
def monthAbbrChars : ℕ → List Char
  | 1 => ['J', 'a', 'n']
  | 2 => ['F', 'e', 'b']
  | 3 => ['M', 'a', 'r']
  | 4 => ['A', 'p', 'r']
  | 5 => ['M', 'a', 'y']
  | 6 => ['J', 'u', 'n']
  | 7 => ['J', 'u', 'l']
  | 8 => ['A', 'u', 'g']
  | 9 => ['S', 'e', 'p']
  | 10 => ['O', 'c', 't']
  | 11 => ['N', 'o', 'v']
  | 12 => ['D', 'e', 'c']
  | _ => []

/-- Textual form `"DD Mon YYYY"` of a date (first supported input format). -/
def fmtDMonY (y m d : ℕ) : String :=
  String.mk (pad2 d ++ (' ' :: (monthAbbrChars m ++ (' ' :: pad4 y))))

/-- Textual form `"DD-MM-YYYY"` of a date (third supported input format). -/
def fmtDashedDMY (y m d : ℕ) : String :=
  String.mk (pad2 d ++ ('-' :: (pad2 m ++ ('-' :: pad4 y))))

/-! ## Lemmas about the `strptime` embedding -/

/-- Digit characters round-trip through `digitVal`. -/
theorem digitVal_dch (k : ℕ) (h : k < 10) : digitVal (dch k) = some k := by
  interval_cases k <;> decide

/-- Digit characters are not the space character. -/
theorem dch_ne_space (k : ℕ) (h : k < 10) : dch k ≠ ' ' := by
  interval_cases k <;> decide

/-- A successful candidate at the head short-circuits `tryCands`. -/
theorem tryCands_cons_some {α : Type} (k : ℕ → List Char → Option α) (v : ℕ)
    (rest : List Char) (more : List (ℕ × List Char)) (x : α) (h : k v rest = some x) :
    tryCands k ((v, rest) :: more) = some x := by
  simp [tryCands, h]

/-- When every candidate fails, `tryCands` fails. -/
theorem tryCands_none {α : Type} (k : ℕ → List Char → Option α)
    (cands : List (ℕ × List Char)) (h : ∀ v r, (v, r) ∈ cands → k v r = none) :
    tryCands k cands = none := by
  induction cands with
  | nil => rfl
  | cons c more ih =>
    obtain ⟨v, r⟩ := c
    simp only [tryCands, h v r (List.mem_cons_self _ _)]
    exact ih fun v r hm => h v r (List.mem_cons_of_mem _ hm)

/-- A successful `tryCands` comes from some listed candidate. -/
theorem tryCands_some {α : Type} (k : ℕ → List Char → Option α)
    (cands : List (ℕ × List Char)) (x : α) (h : tryCands k cands = some x) :
    ∃ v r, (v, r) ∈ cands ∧ k v r = some x := by
  induction cands with
  | nil => exact absurd h (by simp [tryCands])
  | cons c more ih =>
    obtain ⟨v, r⟩ := c
    by_cases hk : ∃ z, k v r = some z
    · obtain ⟨z, hz⟩ := hk
      refine ⟨v, r, List.mem_cons_self _ _, ?_⟩
      rw [hz]
      simpa [tryCands, hz] using h
    · push_neg at hk
      have hnone : k v r = none := Option.eq_none_iff_forall_not_mem.mpr fun z hz => hk z hz
      simp only [tryCands, hnone] at h
      obtain ⟨v1, r1, hm, hk1⟩ := ih h
      exact ⟨v1, r1, List.mem_cons_of_mem _ hm, hk1⟩

/-- Four zero-padded digits parse back to the padded value. -/
theorem parse4_pad4 (y : ℕ) (hy : y ≤ 9999) (rest : List Char) :
    parse4 (pad4 y ++ rest) = some (y, rest) := by
  have h1 : y / 1000 < 10 := by omega
  have h2 : y / 100 % 10 < 10 := Nat.mod_lt _ (by norm_num)
  have h3 : y / 10 % 10 < 10 := Nat.mod_lt _ (by norm_num)
  have h4 : y % 10 < 10 := Nat.mod_lt _ (by norm_num)
  have hsum : y / 1000 * 1000 + y / 100 % 10 * 100 + y / 10 % 10 * 10 + y % 10 = y := by
    omega
  simp [pad4, parse4, digitVal_dch _ h1, digitVal_dch _ h2, digitVal_dch _ h3,
    digitVal_dch _ h4, hsum]

/-- Candidate list produced by a two-digit zero-padded day or month: the
two-digit reading comes first, followed by the one-digit reading when the
leading digit is nonzero. -/
theorem parse2or1_pad2 (hi n : ℕ) (h1 : 1 ≤ n) (h2 : n ≤ hi) (h99 : n ≤ 99)
    (rest : List Char) :
    parse2or1 hi (pad2 n ++ rest) =
      (n, rest) :: (if 1 ≤ n / 10 then [(n / 10, dch (n % 10) :: rest)] else []) := by
  have ha : n / 10 < 10 := by omega
  have hb : n % 10 < 10 := by omega
  have hv : n / 10 * 10 + n % 10 = n := by omega
  simp only [pad2, List.cons_append, List.nil_append, parse2or1,
    digitVal_dch _ ha, digitVal_dch _ hb, hv, if_pos (And.intro h1 h2),
    List.singleton_append]

/-- Valid dates have at most 31 days. -/
theorem daysInMonth_le (y m : ℕ) : daysInMonth y m ≤ 31 := by
  unfold daysInMonth
  split_ifs <;> simp

/-- Bound extraction from `validYMD`. -/
theorem validYMD_bounds (y m d : ℕ) (h : validYMD y m d = true) :
    1 ≤ y ∧ y ≤ 9999 ∧ 1 ≤ m ∧ m ≤ 12 ∧ 1 ≤ d ∧ d ≤ 31 := by
  have hb := of_decide_eq_true h
  exact ⟨hb.1, hb.2.1, hb.2.2.1, hb.2.2.2.1, hb.2.2.2.2.1,
    le_trans hb.2.2.2.2.2 (daysInMonth_le y m)⟩

/-- Inversion for `checkDone`. -/
theorem checkDone_some (y m d : ℕ) (rest : List Char) (x : YMD)
    (h : checkDone y m d rest = some x) :
    x = ⟨y, m, d⟩ ∧ rest = [] ∧ validYMD y m d = true := by
  by_cases hc : rest = [] ∧ validYMD y m d = true
  · refine ⟨?_, hc.1, hc.2⟩
    simp only [checkDone, if_pos hc, Option.some.injEq] at h
    exact h.symm
  · simp [checkDone, hc] at h

/-- Canonical month abbreviations parse back to their month number. -/
theorem parseAbbr_month (m : ℕ) (h1 : 1 ≤ m) (h2 : m ≤ 12) (rest : List Char) :
    parseAbbr (monthAbbrChars m ++ rest) = some (m, rest) := by
  interval_cases m <;> rfl

/-- Format `"%d %b %Y"` accepts the canonical textual rendering of any valid
date. -/
theorem parseDMonY_pads (y m d : ℕ) (h : validYMD y m d = true) :
    parseDMonY (pad2 d ++ (' ' :: (monthAbbrChars m ++ (' ' :: pad4 y)))) =
      some ⟨y, m, d⟩ := by
  obtain ⟨hy1, hy2, hm1, hm2, hd1, hd2⟩ := validYMD_bounds y m d h
  have hp4 : parse4 (pad4 y) = some (y, []) := by
    simpa using parse4_pad4 y hy2 []
  rw [parseDMonY, parse2or1_pad2 31 d hd1 hd2 (by omega)]
  apply tryCands_cons_some
  simp [litC, parseAbbr_month m hm1 hm2, hp4, checkDone, h]

/-- Format `"%d %b %Y"` rejects any input whose first two characters are
digits not followed by a space: both day candidates hit the space literal on
a non-space character. -/
theorem parseDMonY_no_space (j k : ℕ) (hj : j < 10) (hk : k < 10) (t : List Char)
    (ht : ∀ c, t.head? = some c → c ≠ ' ') :
    parseDMonY (dch j :: dch k :: t) = none := by
  rw [parseDMonY]
  apply tryCands_none
  intro v r hm
  simp only [parse2or1, digitVal_dch _ hj, digitVal_dch _ hk] at hm
  have hr : r = t ∨ r = dch k :: t := by
    rcases List.mem_append.mp hm with hmem | hmem
    · split_ifs at hmem with hc
      · exact Or.inl (congrArg Prod.snd (List.mem_singleton.mp hmem))
      · simp at hmem
    · split_ifs at hmem with hc
      · exact Or.inr (congrArg Prod.snd (List.mem_singleton.mp hmem))
      · simp at hmem
  have hlit : litC ' ' r = none := by
    rcases hr with h1 | h1
    · rw [h1]
      cases t with
      | nil => rfl
      | cons c t2 => simp [litC, ht c rfl]
    · rw [h1]
      simp [litC, dch_ne_space k hk]
  simp [hlit]

/-- Format `"%d %b %Y"` rejects the ISO rendering of any date. -/
theorem parseDMonY_on_iso (y : ℕ) (hy : y ≤ 9999) (rest : List Char) :
    parseDMonY (pad4 y ++ '-' :: rest) = none := by
  have h3 : y / 10 % 10 < 10 := by omega
  have happ : pad4 y ++ '-' :: rest =
      dch (y / 1000) :: dch (y / 100 % 10) ::
        (dch (y / 10 % 10) :: dch (y % 10) :: '-' :: rest) := by
    simp [pad4]
  rw [happ]
  apply parseDMonY_no_space (y / 1000) (y / 100 % 10) (by omega) (by omega)
  intro c hc
  simp only [List.head?_cons, Option.some.injEq] at hc
  rw [← hc]
  exact dch_ne_space _ h3

/-- Format `"%d %b %Y"` rejects the dashed rendering of any date. -/
theorem parseDMonY_on_dashed (d : ℕ) (hd : d ≤ 99) (rest : List Char) :
    parseDMonY (pad2 d ++ '-' :: rest) = none := by
  have happ : pad2 d ++ '-' :: rest =
      dch (d / 10) :: dch (d % 10) :: ('-' :: rest) := by
    simp [pad2]
  rw [happ]
  apply parseDMonY_no_space (d / 10) (d % 10) (by omega) (by omega)
  intro c hc
  simp only [List.head?_cons, Option.some.injEq] at hc
  rw [← hc]
  decide

/-- A dash in the third position defeats the four-digit year pattern. -/
theorem parse4_dash3 (a b : Char) (t : List Char) :
    parse4 (a :: b :: '-' :: t) = none := by
  cases t with
  | nil => rfl
  | cons c t2 =>
    have hdash : digitVal '-' = none := rfl
    cases hva : digitVal a <;> cases hvb : digitVal b <;>
      simp [parse4, hva, hvb, hdash]

/-- Literal dashes are consumed by `litC`. -/
theorem litC_dash (l : List Char) : litC '-' ('-' :: l) = some l := by
  simp [litC]

/-- Format `"%Y-%m-%d"` accepts the ISO rendering of any valid date. -/
theorem parseIso_pads (y m d : ℕ) (h : validYMD y m d = true) :
    parseIsoFmt (pad4 y ++ ('-' :: (pad2 m ++ ('-' :: pad2 d)))) = some ⟨y, m, d⟩ := by
  obtain ⟨hy1, hy2, hm1, hm2, hd1, hd2⟩ := validYMD_bounds y m d h
  have htryD : tryCands (fun d2 cs5 => checkDone y m d2 cs5) (parse2or1 31 (pad2 d)) =
      some ⟨y, m, d⟩ := by
    rw [show pad2 d = pad2 d ++ [] from (List.append_nil _).symm,
      parse2or1_pad2 31 d hd1 hd2 (by omega)]
    apply tryCands_cons_some
    simp [checkDone, h]
  have htryM : tryCands
      (fun m2 cs3 => do
        let cs4 ← litC '-' cs3
        tryCands (fun d2 cs5 => checkDone y m2 d2 cs5) (parse2or1 31 cs4))
      (parse2or1 12 (pad2 m ++ ('-' :: pad2 d))) = some ⟨y, m, d⟩ := by
    rw [parse2or1_pad2 12 m hm1 hm2 (by omega)]
    apply tryCands_cons_some
    simp [litC_dash, htryD]
  have hp4 := parse4_pad4 y hy2 ('-' :: (pad2 m ++ ('-' :: pad2 d)))
  simp only [parseIsoFmt, hp4, Option.some_bind, litC_dash]
  exact htryM

/-- Format `"%Y-%m-%d"` rejects the dashed rendering of any date. -/
theorem parseIso_on_dashed (d : ℕ) (rest : List Char) :
    parseIsoFmt (pad2 d ++ '-' :: rest) = none := by
  have happ : pad2 d ++ '-' :: rest =
      dch (d / 10) :: dch (d % 10) :: '-' :: rest := by
    simp [pad2]
  rw [happ]
  simp [parseIsoFmt, parse4_dash3]

/-- Format `"%d-%m-%Y"` accepts the dashed rendering of any valid date. -/
theorem parseDMY_pads (y m d : ℕ) (h : validYMD y m d = true) :
    parseDMY (pad2 d ++ ('-' :: (pad2 m ++ ('-' :: pad4 y)))) = some ⟨y, m, d⟩ := by
  obtain ⟨hy1, hy2, hm1, hm2, hd1, hd2⟩ := validYMD_bounds y m d h
  have hp4 : parse4 (pad4 y) = some (y, []) := by
    simpa using parse4_pad4 y hy2 []
  have htryM : tryCands
      (fun m2 cs3 => do
        let cs4 ← litC '-' cs3
        let (y2, cs5) ← parse4 cs4
        checkDone y2 m2 d cs5)
      (parse2or1 12 (pad2 m ++ ('-' :: pad4 y))) = some ⟨y, m, d⟩ := by
    rw [parse2or1_pad2 12 m hm1 hm2 (by omega)]
    apply tryCands_cons_some
    simp [litC_dash, hp4, checkDone, h]
  rw [parseDMY, parse2or1_pad2 31 d hd1 hd2 (by omega)]
  apply tryCands_cons_some
  simp only [litC_dash, Option.some_bind]
  exact htryM

/-- A string built from a nonempty character list is not the empty string. -/
theorem mk_ne_empty (c : Char) (l : List Char) : String.mk (c :: l) ≠ "" := by
  intro h
  exact List.cons_ne_nil c l (congrArg String.data h)

/-- Successful `"%Y-%m-%d"` parses produce dates that `datetime` accepts. -/
theorem parseIso_valid (cs : List Char) (x : YMD) (h : parseIsoFmt cs = some x) :
    validYMD x.y x.m x.d = true := by
  unfold parseIsoFmt at h
  cases hp : parse4 cs with
  | none => rw [hp] at h; simp at h
  | some p =>
    obtain ⟨y, cs1⟩ := p
    rw [hp] at h
    simp at h
    cases hl : litC '-' cs1 with
    | none => rw [hl] at h; simp at h
    | some cs2 =>
      rw [hl] at h
      simp at h
      obtain ⟨m, cs3, _, hk⟩ := tryCands_some _ _ _ h
      cases hl2 : litC '-' cs3 with
      | none => rw [hl2] at hk; simp at hk
      | some cs4 =>
        rw [hl2] at hk
        simp at hk
        obtain ⟨d, cs5, _, hk2⟩ := tryCands_some _ _ _ hk
        obtain ⟨hx, _, hv⟩ := checkDone_some _ _ _ _ _ hk2
        rw [hx]
        exact hv

/-- The ISO rendering of a valid date parses back to the same date. -/
theorem parseIso_fmt_roundtrip (x : YMD) (h : validYMD x.y x.m x.d = true) :
    parseIsoFmt (fmtIsoYMD x).data = some x := by
  obtain ⟨y, m, d⟩ := x
  exact parseIso_pads y m d h

/-- C5: for every valid calendar date, the three supported textual forms
`"DD Mon YYYY"`, `"YYYY-MM-DD"` and `"DD-MM-YYYY"` all normalise to the
identical `"YYYY-MM-DD"` output; the formats are tried in that fixed order
(the failure lemmas used here show the earlier formats reject the later
renderings, so the first successful parse wins); a string matching none of
the three formats, and absent input, yield `none` instead of an error. -/
theorem parser_C5 (y m d : ℕ) (h : validYMD y m d = true) :
    format_review_date (some (fmtDMonY y m d)) = some (fmtIsoYMD ⟨y, m, d⟩) ∧
    format_review_date (some (fmtIsoYMD ⟨y, m, d⟩)) = some (fmtIsoYMD ⟨y, m, d⟩) ∧
    format_review_date (some (fmtDashedDMY y m d)) = some (fmtIsoYMD ⟨y, m, d⟩) ∧
    format_review_date none = none ∧
    (∀ s : String, parseDMonY s.data = none → parseIsoFmt s.data = none →
      parseDMY s.data = none → format_review_date (some s) = none) := by
  obtain ⟨hy1, hy2, hm1, hm2, hd1, hd2⟩ := validYMD_bounds y m d h
  refine ⟨?_, ?_, ?_, rfl, ?_⟩
  · have hne : fmtDMonY y m d ≠ "" := mk_ne_empty _ _
    have hdata : (fmtDMonY y m d).data =
        pad2 d ++ (' ' :: (monthAbbrChars m ++ (' ' :: pad4 y))) := rfl
    simp [format_review_date, hne, hdata, parseDMonY_pads y m d h]
  · have hne : fmtIsoYMD ⟨y, m, d⟩ ≠ "" := mk_ne_empty _ _
    have hdata : (fmtIsoYMD ⟨y, m, d⟩).data =
        pad4 y ++ ('-' :: (pad2 m ++ ('-' :: pad2 d))) := rfl
    simp [format_review_date, hne, hdata, parseDMonY_on_iso y hy2,
      parseIso_pads y m d h]
  · have hne : fmtDashedDMY y m d ≠ "" := mk_ne_empty _ _
    have hdata : (fmtDashedDMY y m d).data =
        pad2 d ++ ('-' :: (pad2 m ++ ('-' :: pad4 y))) := rfl
    simp [format_review_date, hne, hdata, parseDMonY_on_dashed d (by omega),
      parseIso_on_dashed, parseDMY_pads y m d h]
  · intro s hs1 hs2 hs3
    by_cases he : s = ""
    · simp [format_review_date, he]
    · simp [format_review_date, he, hs1, hs2, hs3]

/-- C5 witness: the normalisation theorem applied at the concrete date
2024-01-12, together with concrete-string evaluations of the three forms. -/
theorem parser_C5_witness :
    validYMD 2024 1 12 = true ∧
    fmtDMonY 2024 1 12 = "12 Jan 2024" ∧
    fmtIsoYMD ⟨2024, 1, 12⟩ = "2024-01-12" ∧
    fmtDashedDMY 2024 1 12 = "12-01-2024" ∧
    format_review_date (some (fmtDMonY 2024 1 12)) = some (fmtIsoYMD ⟨2024, 1, 12⟩) ∧
    format_review_date (some (fmtDashedDMY 2024 1 12)) = some "2024-01-12" := by
  have h := parser_C5 2024 1 12 (by decide)
  exact ⟨by decide, rfl, rfl, rfl, h.1, h.2.2.1⟩

/-! ## Idempotence of the whitespace normalisation -/

/-- Field extraction for `String.mk`. -/
theorem data_mk (l : List Char) : (String.mk l).data = l := rfl

/-- Every token produced by `wordsAux` is nonempty and whitespace-free. -/
theorem wordsAux_sound (cs : List Char) :
    ∀ acc, (∀ c ∈ acc, c.isWhitespace = false) →
      ∀ w ∈ wordsAux cs acc, w ≠ [] ∧ ∀ c ∈ w, c.isWhitespace = false := by
  induction cs with
  | nil =>
    intro acc hacc w hw
    by_cases hn : acc = []
    · simp [wordsAux, hn] at hw
    · simp only [wordsAux, if_neg hn, List.mem_singleton] at hw
      subst hw
      refine ⟨by simpa using hn, ?_⟩
      intro c hc
      exact hacc c (List.mem_reverse.mp hc)
  | cons c rest ih =>
    intro acc hacc w hw
    by_cases hws : c.isWhitespace = true
    · by_cases hn : acc = []
      · simp only [wordsAux, hws, if_true, hn, if_pos rfl] at hw
        exact ih [] (by simp) w hw
      · simp only [wordsAux, hws, if_true, if_neg hn, List.mem_cons] at hw
        rcases hw with hw | hw
        · subst hw
          refine ⟨by simpa using hn, ?_⟩
          intro c2 hc2
          exact hacc c2 (List.mem_reverse.mp hc2)
        · exact ih [] (by simp) w hw
    · have hws2 : c.isWhitespace = false := by
        cases hcc : c.isWhitespace
        · rfl
        · exact absurd hcc hws
      simp only [wordsAux, hws2, Bool.false_eq_true, if_false] at hw
      refine ih (c :: acc) ?_ w hw
      intro c2 hc2
      rcases List.mem_cons.mp hc2 with h2 | h2
      · subst h2; exact hws2
      · exact hacc c2 h2

/-- Every token of `words` is nonempty and whitespace-free. -/
theorem words_sound (cs : List Char) :
    ∀ w ∈ words cs, w ≠ [] ∧ ∀ c ∈ w, c.isWhitespace = false :=
  wordsAux_sound cs [] (by simp)

/-- Scanning a whitespace-free run just accumulates it. -/
theorem wordsAux_append_word (w : List Char) (hw : ∀ c ∈ w, c.isWhitespace = false)
    (cs acc : List Char) :
    wordsAux (w ++ cs) acc = wordsAux cs (w.reverse ++ acc) := by
  induction w generalizing acc with
  | nil => simp
  | cons c w2 ih =>
    have hc : c.isWhitespace = false := hw c (List.mem_cons_self c w2)
    have hw2 : ∀ c2 ∈ w2, c2.isWhitespace = false :=
      fun c2 h2 => hw c2 (List.mem_cons_of_mem c h2)
    rw [List.cons_append]
    simp only [wordsAux, hc, Bool.false_eq_true, if_false]
    rw [ih hw2 (c :: acc)]
    simp [List.append_assoc]

/-- Splitting the single-space join of nonempty whitespace-free tokens
recovers exactly the tokens. -/
theorem words_joinWords (ws : List (List Char))
    (h : ∀ w ∈ ws, w ≠ [] ∧ ∀ c ∈ w, c.isWhitespace = false) :
    words (joinWords ws) = ws := by
  induction ws with
  | nil => rfl
  | cons w ws2 ih =>
    obtain ⟨hne, hfree⟩ := h w (List.mem_cons_self w ws2)
    have hrev : w.reverse ≠ [] := by simpa using hne
    cases ws2 with
    | nil =>
      show wordsAux (joinWords [w]) [] = [w]
      have : joinWords [w] = w ++ [] := by simp [joinWords]
      rw [this, wordsAux_append_word w hfree [] []]
      simp [wordsAux, hrev]
    | cons w2 ws3 =>
      have htail : ∀ u ∈ w2 :: ws3, u ≠ [] ∧ ∀ c ∈ u, c.isWhitespace = false :=
        fun u hu => h u (List.mem_cons_of_mem w hu)
      show wordsAux (joinWords (w :: w2 :: ws3)) [] = w :: w2 :: ws3
      have hj : joinWords (w :: w2 :: ws3) = w ++ ' ' :: joinWords (w2 :: ws3) := rfl
      rw [hj, wordsAux_append_word w hfree (' ' :: joinWords (w2 :: ws3)) []]
      have hsp : (' ' : Char).isWhitespace = true := rfl
      simp only [wordsAux, hsp, if_true, List.append_nil, if_neg hrev,
        List.reverse_reverse]
      rw [show wordsAux (joinWords (w2 :: ws3)) [] = words (joinWords (w2 :: ws3)) from rfl,
        ih htail]

/-- The text normalisation of `clean_dataframe` is idempotent. -/
theorem normText_idem (s : String) : normText (normText s) = normText s := by
  show String.mk (joinWords (words (String.mk (joinWords (words s.data))).data)) =
    String.mk (joinWords (words s.data))
  rw [data_mk, words_joinWords (words s.data) (words_sound s.data)]

/-! ## ETL pipeline (`src/etl/process_reviews.py`) -/

/-- One row of the working table.  Fields mirror the columns of the
dataframe built from the raw JSON payloads; a `none` entry is pandas `NaN`.
The `rating` column is carried after the `pd.to_numeric(errors="coerce")`
step, under which a numeric value is itself and anything unparseable is
missing; the derived columns are `none` until their stage fills them. -/
structure Row where
  bus_id : Option String
  operator_name : Option String
  bus_name : Option String
  bus_type : Option String
  route : Option String
  rating : Option ℚ
  rating_count : Option ℤ
  review_title : Option String
  review_text : Option String
  review_date : Option String
  journey_date : Option String
  scraped_at : Option String
  source_file : Option String
  review_length : Option ℕ
  review_word_count : Option ℕ
  sentiment : Option String
  sentiment_score : Option ℚ
deriving DecidableEq

/-- A pandas dataframe: either the column-less `pd.DataFrame()` produced
when no raw records exist, or a table of typed rows (possibly empty but with
the full column set). -/
inductive Frame (α : Type) where
  | noColumns : Frame α
  | table : List α → Frame α
deriving DecidableEq

/-- Embedding of `load_raw_files`: each input file is its parsed record
list (in filename-sorted order); files parsing to an empty dataset are
skipped, surviving records are tagged with their source filename, and with
no surviving file the result is the column-less empty frame. -/
def load_raw_files (files : List (String × List Row)) : Frame Row :=
  let records :=
    (files.filter (fun f => !f.2.isEmpty)).map
      (fun f => f.2.map (fun r => { r with source_file := some f.1 }))
  if records.isEmpty then .noColumns else .table records.flatten

/-- Deduplication key of `clean_dataframe`:
`(bus_id, review_text, review_date)`. -/
def rowKey (r : Row) : Option String × Option String × Option String :=
  (r.bus_id, r.review_text, r.review_date)

/-- Row-level text normalisation of stage 1. -/
def textNormRow (r : Row) : Row :=
  { r with review_text := some (normText (r.review_text.getD "")) }

/-- Stage 1 of `clean_dataframe`: whitespace-normalise `review_text`
(`fillna("")` then collapse and strip). -/
def normalizeTextRows (rows : List Row) : List Row :=
  rows.map textNormRow

/-- Stage 2: drop rows whose normalised text is empty
(`df[df["review_text"] != ""]`). -/
def filterNonEmptyText (rows : List Row) : List Row :=
  rows.filter (fun r => decide (r.review_text ≠ some ""))

/-- Stage 3: drop rows below the minimum rating after treating missing
ratings as 0 (`df[df["rating"].fillna(0) >= min_rating]`). -/
def filterMinRating (m : ℚ) (rows : List Row) : List Row :=
  rows.filter (fun r => decide (m ≤ r.rating.getD 0))

/-- Stage 4: normalise `review_date` through the external
`pd.to_datetime(errors="coerce").dt.strftime("%Y-%m-%d")`, modelled by the
parser parameter `p` followed by the ISO renderer; failures become
missing. -/
def reviewDateRow (p : String → Option YMD) (r : Row) : Row :=
  { r with review_date := (r.review_date.bind p).map fmtIsoYMD }

/-- Stage 4 applied to the whole table. -/
def normalizeReviewDate (p : String → Option YMD) (rows : List Row) : List Row :=
  rows.map (reviewDateRow p)

/-- Worker for `drop_duplicates(subset=dedup_cols)`: keep the first row for
each key not seen before (pandas treats equal `NaN` keys as duplicates,
which `Option` equality reproduces). -/
def dedupAux (seen : List (Option String × Option String × Option String)) :
    List Row → List Row
  | [] => []
  | r :: rest =>
    if rowKey r ∈ seen then dedupAux seen rest
    else r :: dedupAux (rowKey r :: seen) rest

/-- Stage 5: deduplicate on `(bus_id, review_text, review_date)`, keeping
first occurrences. -/
def dedupRows (rows : List Row) : List Row := dedupAux [] rows

/-- Row-level derivation of stage 6. -/
def derivedRow (r : Row) : Row :=
  { r with
    review_length := some (r.review_text.getD "").length
    review_word_count := some (words (r.review_text.getD "").data).length }

/-- Stage 6: derive `review_length` (character count) and
`review_word_count` (whitespace-token count) from the normalised text. -/
def addDerived (rows : List Row) : List Row :=
  rows.map derivedRow

/-- Row-level journey-date normalisation of stage 7. -/
def journeyDateRow (p : String → Option YMD) (r : Row) : Row :=
  { r with journey_date := (r.journey_date.bind p).map fmtIsoYMD }

/-- Stage 7: normalise `journey_date` the same way as `review_date`. -/
def normalizeJourneyDate (p : String → Option YMD) (rows : List Row) : List Row :=
  rows.map (journeyDateRow p)

/-- Row-level pipeline of `clean_dataframe`, stages in source order. -/
def cleanRows (p : String → Option YMD) (m : ℚ) (rows : List Row) : List Row :=
  normalizeJourneyDate p
    (addDerived
      (dedupRows
        (normalizeReviewDate p
          (filterMinRating m
            (filterNonEmptyText
              (normalizeTextRows rows))))))

/-- Embedding of `clean_dataframe`: the column-less empty frame is returned
unchanged (`if df.empty: return df`), otherwise the row pipeline runs. -/
def clean_dataframe (p : String → Option YMD) (m : ℚ) : Frame Row → Frame Row
  | .noColumns => .noColumns
  | .table rows => .table (cleanRows p m rows)

/-- Embedding of `apply_sentiment`: attach the sentiment label and compound
score of the analyzer to every row. -/
def apply_sentiment (scorer : String → ℚ) : Frame Row → Frame Row
  | .noColumns => .noColumns
  | .table rows =>
    .table (rows.map (fun r =>
      { r with
        sentiment := some (analyze scorer r.review_text).label
        sentiment_score := some (analyze scorer r.review_text).score }))

/-- One row of the per-bus aggregate table. -/
structure BusAgg where
  bus_id : String
  operator_name : Option String
  bus_name : Option String
  bus_type : Option String
  route : Option String
  avg_rating : Option ℚ
  rating_count : ℕ
  sentiment_positive : ℚ
  sentiment_negative : ℚ
deriving DecidableEq

/-- Rows belonging to one `groupby("bus_id")` group, in table order
(pandas drops rows whose group key is `NaN`). -/
def groupFor (rows : List Row) (b : String) : List Row :=
  rows.filter (fun r => decide (r.bus_id = some b))

/-- Ratings present in a group: pandas `mean` and `count` both skip `NaN`
entries. -/
def presentRatings (g : List Row) : List ℚ := g.filterMap (fun r => r.rating)

/-- Named aggregation `("col", "first")`: pandas `GroupBy.first` returns the
first non-null entry of the column. -/
def firstNonNull (f : Row → Option String) (g : List Row) : Option String :=
  (g.filterMap f).head?

/-- Aggregate record of one bus, mirroring the named aggregations of
`aggregate_bus_metrics`: `mean` and `count` of the rating column skip
missing entries, while the sentiment fractions compare every row of the
group against the label (a missing label compares unequal). -/
def aggFor (rows : List Row) (b : String) : BusAgg :=
  let g := groupFor rows b
  let rs := presentRatings g
  { bus_id := b
    operator_name := firstNonNull (fun r => r.operator_name) g
    bus_name := firstNonNull (fun r => r.bus_name) g
    bus_type := firstNonNull (fun r => r.bus_type) g
    route := firstNonNull (fun r => r.route) g
    avg_rating := if rs.isEmpty then none else some (rs.sum / (rs.length : ℚ))
    rating_count := rs.length
    sentiment_positive :=
      ((g.filter (fun r => decide (r.sentiment = some "positive"))).length : ℚ) /
        (g.length : ℚ)
    sentiment_negative :=
      ((g.filter (fun r => decide (r.sentiment = some "negative"))).length : ℚ) /
        (g.length : ℚ) }

/-- First-occurrence deduplication of group keys. -/
def dedupKeys (seen : List String) : List String → List String
  | [] => []
  | k :: rest =>
    if k ∈ seen then dedupKeys seen rest
    else k :: dedupKeys (k :: seen) rest

/-- Insert into a sorted list of keys (`groupby` sorts group keys). -/
def insertSorted (x : String) : List String → List String
  | [] => [x]
  | y :: ys => if x ≤ y then x :: y :: ys else y :: insertSorted x ys

/-- Sort the distinct group keys. -/
def sortKeys (ks : List String) : List String := ks.foldr insertSorted []

/-- Aggregate rows of `aggregate_bus_metrics` for a nonempty input table:
one `BusAgg` per distinct non-missing `bus_id`, keys sorted. -/
def aggRows (rows : List Row) : List BusAgg :=
  (sortKeys (dedupKeys [] (rows.filterMap (fun r => r.bus_id)))).map (aggFor rows)

/-- Embedding of `aggregate_bus_metrics`: an empty dataframe (column-less
or zero-row) is returned unchanged — still review-shaped, hence the sum —
otherwise the per-bus aggregate table is produced. -/
def aggregate_bus_metrics : Frame Row → Sum (Frame Row) (Frame BusAgg)
  | .noColumns => .inl .noColumns
  | .table [] => .inl (.table [])
  | .table rows => .inr (.table (aggRows rows))

/-- Shape of one written CSV file: `pd.DataFrame().to_csv` writes no header
line at all (the frame has no columns), while a table frame writes its
column headers and one line per row. -/
structure CsvOut where
  header : Option (List String)
  dataRows : ℕ
deriving DecidableEq

/-- Render a frame to CSV shape given its column list. -/
def toCsvOut {α : Type} (cols : List String) : Frame α → CsvOut
  | .noColumns => { header := none, dataRows := 0 }
  | .table rows => { header := some cols, dataRows := rows.length }

/-- Column headers of the enriched review table. -/
def reviewCols : List String :=
  ["bus_id", "operator_name", "bus_name", "bus_type", "route", "rating",
   "rating_count", "review_title", "review_text", "review_date",
   "journey_date", "scraped_at", "source_file", "review_length",
   "review_word_count", "sentiment", "sentiment_score"]

/-- Column headers of the per-bus aggregate table. -/
def busCols : List String :=
  ["bus_id", "operator_name", "bus_name", "bus_type", "route", "avg_rating",
   "rating_count", "sentiment_positive", "sentiment_negative"]

/-- Embedding of `persist`: write `reviews.csv` and `buses.csv`. -/
def persist (reviews : Frame Row) (buses : Sum (Frame Row) (Frame BusAgg)) :
    CsvOut × CsvOut :=
  (toCsvOut reviewCols reviews,
    match buses with
    | .inl f => toCsvOut reviewCols f
    | .inr f => toCsvOut busCols f)

/-- Embedding of the ETL `main`: ingest, clean, score, aggregate,
persist. -/
def etl_main (p : String → Option YMD) (scorer : String → ℚ) (m : ℚ)
    (files : List (String × List Row)) : CsvOut × CsvOut :=
  let raw := load_raw_files files
  let cleaned := clean_dataframe p m raw
  let enriched := apply_sentiment scorer cleaned
  let busMetrics := aggregate_bus_metrics enriched
  persist enriched busMetrics

/-- Number of data rows of a frame. -/
def rowCount : Frame Row → ℕ
  | .noColumns => 0
  | .table rows => rows.length

/-- C2: in `clean_dataframe` with minimum-rating threshold `m`, a record
with numeric rating `x` is retained exactly when `m ≤ x`, and a record with
missing rating is compared as 0, so it is dropped for every `m > 0` and
retained for every `m ≤ 0` (the record is otherwise retainable: its
normalised review text is nonempty). -/
theorem etl_C2 (p : String → Option YMD) (m : ℚ) (r : Row)
    (h : normText (r.review_text.getD "") ≠ "") :
    (∀ x : ℚ, r.rating = some x →
      rowCount (clean_dataframe p m (.table [r])) = if m ≤ x then 1 else 0) ∧
    (r.rating = none →
      rowCount (clean_dataframe p m (.table [r])) = if m ≤ 0 then 1 else 0) := by
  constructor
  · intro x hx
    by_cases hm : m ≤ x
    · simp [clean_dataframe, cleanRows, normalizeTextRows, textNormRow,
        filterNonEmptyText, filterMinRating, normalizeReviewDate, reviewDateRow,
        dedupRows, dedupAux, addDerived, derivedRow, normalizeJourneyDate,
        journeyDateRow, rowCount, h, hx, hm]
    · simp [clean_dataframe, cleanRows, normalizeTextRows, textNormRow,
        filterNonEmptyText, filterMinRating, normalizeReviewDate, reviewDateRow,
        dedupRows, dedupAux, addDerived, derivedRow, normalizeJourneyDate,
        journeyDateRow, rowCount, h, hx, hm]
  · intro hx
    by_cases hm : m ≤ 0
    · simp [clean_dataframe, cleanRows, normalizeTextRows, textNormRow,
        filterNonEmptyText, filterMinRating, normalizeReviewDate, reviewDateRow,
        dedupRows, dedupAux, addDerived, derivedRow, normalizeJourneyDate,
        journeyDateRow, rowCount, h, hx, hm]
    · simp [clean_dataframe, cleanRows, normalizeTextRows, textNormRow,
        filterNonEmptyText, filterMinRating, normalizeReviewDate, reviewDateRow,
        dedupRows, dedupAux, addDerived, derivedRow, normalizeJourneyDate,
        journeyDateRow, rowCount, h, hx, hm]

/-- Blank row used by concrete examples. -/
def blankRow : Row :=
  { bus_id := none, operator_name := none, bus_name := none, bus_type := none,
    route := none, rating := none, rating_count := none, review_title := none,
    review_text := none, review_date := none, journey_date := none,
    scraped_at := none, source_file := none, review_length := none,
    review_word_count := none, sentiment := none, sentiment_score := none }

/-- C2 witness: at threshold 3.0 a rating of exactly 3.0 is retained, a
rating of 2.9 is dropped, and a missing rating is dropped. -/
theorem etl_C2_witness :
    rowCount (clean_dataframe (fun _ => none) 3
      (.table [{ blankRow with review_text := some "ok", rating := some 3 }])) = 1 ∧
    rowCount (clean_dataframe (fun _ => none) 3
      (.table [{ blankRow with review_text := some "ok", rating := some (29 / 10) }])) = 0 ∧
    rowCount (clean_dataframe (fun _ => none) 3
      (.table [{ blankRow with review_text := some "ok", rating := none }])) = 0 := by
  have h1 := (etl_C2 (fun _ => none) 3
    { blankRow with review_text := some "ok", rating := some 3 } (by decide)).1 3 rfl
  have h2 := (etl_C2 (fun _ => none) 3
    { blankRow with review_text := some "ok", rating := some (29 / 10) } (by decide)).1
    (29 / 10) rfl
  have h3 := (etl_C2 (fun _ => none) 3
    { blankRow with review_text := some "ok", rating := none } (by decide)).2 rfl
  refine ⟨?_, ?_, ?_⟩
  · rw [h1]; norm_num
  · rw [h2]; norm_num
  · rw [h3]; norm_num

/-- C8 counterexample: on an empty input directory the pipeline produces
empty output files whose `header` component is `none` — the empty dataframe
has no columns, so no column headers are written, contradicting the claim
that the outputs contain the column headers. -/
theorem etl_C8_cex :
    etl_main (fun _ => none) (fun _ => 0) 0 [] =
      ({ header := none, dataRows := 0 }, { header := none, dataRows := 0 }) := rfl

/-- C8 (amended): running the pipeline on an input directory with no raw
JSON files, or only files parsing to empty datasets, does not raise and
produces both curated outputs as empty files with zero data rows and no
header line. -/
theorem etl_C8 (p : String → Option YMD) (scorer : String → ℚ) (m : ℚ)
    (files : List (String × List Row)) (h : ∀ f ∈ files, f.2 = []) :
    etl_main p scorer m files =
      ({ header := none, dataRows := 0 }, { header := none, dataRows := 0 }) := by
  have hfilter : files.filter (fun f => !f.2.isEmpty) = [] := by
    rw [List.filter_eq_nil_iff]
    intro f hf
    simp [h f hf]
  have hload : load_raw_files files = .noColumns := by
    simp [load_raw_files, hfilter]
  simp [etl_main, hload, clean_dataframe, apply_sentiment, aggregate_bus_metrics,
    persist, toCsvOut]

/-- C8 witness: the amended empty-input theorem at the empty file list. -/
theorem etl_C8_witness :
    etl_main (fun _ => none) (fun _ => 0) 1 [] =
      ({ header := none, dataRows := 0 }, { header := none, dataRows := 0 }) :=
  etl_C8 (fun _ => none) (fun _ => 0) 1 [] (by simp)

/-! ## Idempotence of `clean_dataframe` (claim C3) -/

/-- Writing a field back to itself is the identity. -/
theorem update_text_self (r : Row) : { r with review_text := r.review_text } = r := by
  cases r; rfl

/-- Writing `review_date` back to itself is the identity. -/
theorem update_reviewdate_self (r : Row) :
    { r with review_date := r.review_date } = r := by
  cases r; rfl

/-- Writing `journey_date` back to itself is the identity. -/
theorem update_journeydate_self (r : Row) :
    { r with journey_date := r.journey_date } = r := by
  cases r; rfl

/-- Writing both derived fields back to themselves is the identity. -/
theorem update_derived_self (r : Row) :
    { r with review_length := r.review_length,
             review_word_count := r.review_word_count } = r := by
  cases r; rfl

/-- Mapping a function that fixes every member is the identity. -/
theorem map_id_of {α : Type} (f : α → α) (l : List α) (h : ∀ a ∈ l, f a = a) :
    l.map f = l :=
  (List.map_congr_left h).trans (List.map_id' l)

/-- Rows surviving deduplication come from the input. -/
theorem dedupAux_subset (l : List Row) :
    ∀ seen r, r ∈ dedupAux seen l → r ∈ l := by
  induction l with
  | nil => intro seen r h; simp [dedupAux] at h
  | cons a rest ih =>
    intro seen r h
    by_cases hm : rowKey a ∈ seen
    · simp only [dedupAux, if_pos hm] at h
      exact List.mem_cons_of_mem a (ih seen r h)
    · simp only [dedupAux, if_neg hm, List.mem_cons] at h
      rcases h with h | h
      · exact h ▸ List.mem_cons_self a rest
      · exact List.mem_cons_of_mem a (ih _ r h)

/-- Deduplication output has pairwise-distinct keys, none of them seen. -/
theorem dedupAux_pairwise (l : List Row) :
    ∀ seen, (dedupAux seen l).Pairwise (fun a b => rowKey a ≠ rowKey b) ∧
      ∀ r ∈ dedupAux seen l, rowKey r ∉ seen := by
  induction l with
  | nil => intro seen; exact ⟨List.Pairwise.nil, by simp [dedupAux]⟩
  | cons a rest ih =>
    intro seen
    by_cases hm : rowKey a ∈ seen
    · simpa only [dedupAux, if_pos hm] using ih seen
    · obtain ⟨hpw, hnotin⟩ := ih (rowKey a :: seen)
      simp only [dedupAux, if_neg hm]
      refine ⟨List.Pairwise.cons ?_ hpw, ?_⟩
      · intro b hb heq
        exact hnotin b hb (heq ▸ List.mem_cons_self _ _)
      · intro x hx
        rcases List.mem_cons.mp hx with rfl | hx2
        · exact hm
        · exact fun hxs => hnotin x hx2 (List.mem_cons_of_mem _ hxs)

/-- Deduplication is the identity on a table whose keys are already
pairwise distinct and unseen. -/
theorem dedupAux_eq_self (l : List Row) :
    ∀ seen, (∀ r ∈ l, rowKey r ∉ seen) →
      l.Pairwise (fun a b => rowKey a ≠ rowKey b) → dedupAux seen l = l := by
  induction l with
  | nil => intro seen _ _; rfl
  | cons a rest ih =>
    intro seen h1 h2
    have hnotin : rowKey a ∉ seen := h1 a (List.mem_cons_self a rest)
    obtain ⟨hhead, htail⟩ := List.pairwise_cons.mp h2
    simp only [dedupAux, if_neg hnotin]
    congr 1
    refine ih (rowKey a :: seen) ?_ htail
    intro r hr
    intro hmem
    rcases List.mem_cons.mp hmem with heq | hmem2
    · exact hhead r hr heq.symm
    · exact h1 r (List.mem_cons_of_mem a hr) hmem2

/-- Invariant satisfied by every row that `clean_dataframe` outputs: the
text is normalised and nonempty, the rating passes the threshold, both date
columns are stable under renormalisation, and the derived columns agree with
the text. -/
def StableRow (p : String → Option YMD) (m : ℚ) (r : Row) : Prop :=
  r.review_text = some (normText (r.review_text.getD "")) ∧
  r.review_text ≠ some "" ∧
  m ≤ r.rating.getD 0 ∧
  (r.review_date.bind p).map fmtIsoYMD = r.review_date ∧
  (r.journey_date.bind p).map fmtIsoYMD = r.journey_date ∧
  r.review_length = some (r.review_text.getD "").length ∧
  r.review_word_count = some (words (r.review_text.getD "").data).length

/-- A date column just normalised through `p` is stable under a second
normalisation, provided `p` re-parses its own rendering. -/
theorem dateStable_of_norm (p : String → Option YMD)
    (hp : ∀ s x, p s = some x → p (fmtIsoYMD x) = some x) (od : Option String) :
    (((od.bind p).map fmtIsoYMD).bind p).map fmtIsoYMD = (od.bind p).map fmtIsoYMD := by
  cases od with
  | none => rfl
  | some s =>
    cases hps : p s with
    | none => simp [hps]
    | some x => simp [hps, hp s x hps]

/-- Every row produced by the clean pipeline satisfies the invariant. -/
theorem cleanRows_stable (p : String → Option YMD)
    (hp : ∀ s x, p s = some x → p (fmtIsoYMD x) = some x) (m : ℚ) (rows : List Row) :
    ∀ r ∈ cleanRows p m rows, StableRow p m r := by
  intro r hr
  unfold cleanRows normalizeJourneyDate addDerived normalizeReviewDate
    filterMinRating filterNonEmptyText normalizeTextRows at hr
  obtain ⟨r6, h6, rfl⟩ := List.mem_map.mp hr
  obtain ⟨r5, h5, rfl⟩ := List.mem_map.mp h6
  have h4 : r5 ∈ (List.map (reviewDateRow p)
      (List.filter (fun r => decide (m ≤ r.rating.getD 0))
        (List.filter (fun r => decide (r.review_text ≠ some ""))
          (List.map textNormRow rows)))) := dedupAux_subset _ _ _ h5
  obtain ⟨r3, h3, rfl⟩ := List.mem_map.mp h4
  obtain ⟨h3a, h3b⟩ := List.mem_filter.mp h3
  obtain ⟨h2a, h2b⟩ := List.mem_filter.mp h3a
  obtain ⟨r0, _, rfl⟩ := List.mem_map.mp h2a
  have htext : (textNormRow r0).review_text =
      some (normText (r0.review_text.getD "")) := rfl
  have hne : (textNormRow r0).review_text ≠ some "" := of_decide_eq_true h2b
  have hrate : m ≤ (textNormRow r0).rating.getD 0 := of_decide_eq_true h3b
  refine ⟨?_, ?_, ?_, ?_, ?_, ?_, ?_⟩
  · show some (normText (r0.review_text.getD "")) =
      some (normText (normText (r0.review_text.getD "")))
    rw [normText_idem]
  · exact hne
  · exact hrate
  · exact dateStable_of_norm p hp (textNormRow r0).review_date
  · exact dateStable_of_norm p hp (textNormRow r0).journey_date
  · rfl
  · rfl

/-- The clean pipeline always outputs pairwise-distinct deduplication
keys. -/
theorem cleanRows_pairwise (p : String → Option YMD) (m : ℚ) (rows : List Row) :
    (cleanRows p m rows).Pairwise (fun a b => rowKey a ≠ rowKey b) := by
  unfold cleanRows normalizeJourneyDate addDerived
  rw [List.pairwise_map, List.pairwise_map]
  have h := (dedupAux_pairwise
    (normalizeReviewDate p (filterMinRating m
      (filterNonEmptyText (normalizeTextRows rows)))) []).1
  exact h.imp (fun hne => hne)

/-- The clean pipeline is the identity on a table of invariant rows with
pairwise-distinct keys. -/
theorem cleanRows_eq_self (p : String → Option YMD) (m : ℚ) (l : List Row)
    (hs : ∀ r ∈ l, StableRow p m r)
    (hk : l.Pairwise (fun a b => rowKey a ≠ rowKey b)) : cleanRows p m l = l := by
  have h1 : normalizeTextRows l = l := by
    refine map_id_of _ _ (fun a ha => ?_)
    unfold textNormRow
    rw [← (hs a ha).1]
  have h2 : filterNonEmptyText l = l :=
    List.filter_eq_self.mpr (fun a ha => decide_eq_true (hs a ha).2.1)
  have h3 : filterMinRating m l = l :=
    List.filter_eq_self.mpr (fun a ha => decide_eq_true (hs a ha).2.2.1)
  have h4 : normalizeReviewDate p l = l := by
    refine map_id_of _ _ (fun a ha => ?_)
    unfold reviewDateRow
    rw [(hs a ha).2.2.2.1]
  have h5 : dedupRows l = l := dedupAux_eq_self l [] (by simp) hk
  have h6 : addDerived l = l := by
    refine map_id_of _ _ (fun a ha => ?_)
    unfold derivedRow
    rw [← (hs a ha).2.2.2.2.2.1, ← (hs a ha).2.2.2.2.2.2]
  have h7 : normalizeJourneyDate p l = l := by
    refine map_id_of _ _ (fun a ha => ?_)
    unfold journeyDateRow
    rw [(hs a ha).2.2.2.2.1]
  rw [cleanRows, h1, h2, h3, h4, h5, h6, h7]

/-- C3: `clean_dataframe` is idempotent — under the (true of pandas)
assumption that the external date parser re-parses its own `YYYY-MM-DD`
rendering — and no two rows of its output share the same
`(bus_id, review_text, review_date)` key triple. -/
theorem etl_C3 (p : String → Option YMD)
    (hp : ∀ s x, p s = some x → p (fmtIsoYMD x) = some x) (m : ℚ) (F : Frame Row) :
    clean_dataframe p m (clean_dataframe p m F) = clean_dataframe p m F ∧
    ∀ rows, clean_dataframe p m F = .table rows →
      rows.Pairwise (fun a b => rowKey a ≠ rowKey b) := by
  constructor
  · cases F with
    | noColumns => rfl
    | table rows =>
      show Frame.table (cleanRows p m (cleanRows p m rows)) =
        Frame.table (cleanRows p m rows)
      rw [cleanRows_eq_self p m (cleanRows p m rows)
        (cleanRows_stable p hp m rows) (cleanRows_pairwise p m rows)]
  · intro rows2 heq
    cases F with
    | noColumns => exact absurd heq (by simp [clean_dataframe])
    | table rows =>
      have : cleanRows p m rows = rows2 := by
        simpa [clean_dataframe] using heq
      rw [← this]
      exact cleanRows_pairwise p m rows

/-- C3 witness: the idempotence theorem applied at a concrete parser that
accepts exactly the `"%Y-%m-%d"` format (which satisfies the round-trip
hypothesis) and a concrete one-row table. -/
theorem etl_C3_witness :
    clean_dataframe (fun s => parseIsoFmt s.data) 0
        (clean_dataframe (fun s => parseIsoFmt s.data) 0
          (.table [{ blankRow with
                     review_text := some "nice trip"
                     review_date := some "2024-01-12" }])) =
      clean_dataframe (fun s => parseIsoFmt s.data) 0
        (.table [{ blankRow with
                   review_text := some "nice trip"
                   review_date := some "2024-01-12" }]) := by
  have hp : ∀ (s : String) (x : YMD), parseIsoFmt s.data = some x →
      parseIsoFmt (fmtIsoYMD x).data = some x := by
    intro s x h
    exact parseIso_fmt_roundtrip x (parseIso_valid s.data x h)
  exact (etl_C3 (fun s => parseIsoFmt s.data) hp 0
    (.table [{ blankRow with
               review_text := some "nice trip"
               review_date := some "2024-01-12" }])).1

/-! ## Per-bus aggregation (claim C4) -/

/-- C4: every entry of the aggregate table has `avg_rating` equal to the
arithmetic mean of the non-absent ratings of its bus group (absent when the
group has no present rating) and `rating_count` equal to the number of
present ratings — the same present-rating population for both, so the two
named aggregations are consistent. -/
theorem etl_C4 (rows : List Row) (a : BusAgg) (h : a ∈ aggRows rows) :
    a.avg_rating =
      (if (presentRatings (groupFor rows a.bus_id)).isEmpty then none
       else some ((presentRatings (groupFor rows a.bus_id)).sum /
         ((presentRatings (groupFor rows a.bus_id)).length : ℚ))) ∧
    a.rating_count = (presentRatings (groupFor rows a.bus_id)).length := by
  obtain ⟨k, _, rfl⟩ := List.mem_map.mp h
  exact ⟨rfl, rfl⟩

/-- Concrete table for the C4 witness: bus `B1` with ratings 4, 5 and
absent. -/
def c4Rows : List Row :=
  [{ blankRow with bus_id := some "B1", rating := some 4 },
   { blankRow with bus_id := some "B1", rating := some 5 },
   { blankRow with bus_id := some "B1", rating := none }]

/-- C4 witness: for ratings 4, 5 and absent the aggregate is
`avg_rating = 4.5` and `rating_count = 2`. -/
theorem etl_C4_witness :
    (aggFor c4Rows "B1" ∈ aggRows c4Rows) ∧
    (aggFor c4Rows "B1").avg_rating = some (9 / 2) ∧
    (aggFor c4Rows "B1").rating_count = 2 := by
  have hmem : aggFor c4Rows "B1" ∈ aggRows c4Rows := by
    rw [show aggRows c4Rows = [aggFor c4Rows "B1"] from rfl]
    exact List.mem_singleton.mpr rfl
  have h := etl_C4 c4Rows (aggFor c4Rows "B1") hmem
  refine ⟨hmem, ?_, ?_⟩
  · rw [h.1,
      show presentRatings (groupFor c4Rows (aggFor c4Rows "B1").bus_id) = [4, 5] from rfl]
    norm_num [List.sum_cons, List.sum_nil]
  · rw [h.2]
    rfl

/-! ## Dashboard filters (`app.py`, claim C10) -/

/-- Filter selections of the dashboard sidebar. -/
structure DashFilters where
  operator : List String
  bus_type : List String
  sentiment : List String
  rating_range : ℚ × ℚ
  route_keyword : String

/-- Pandas `Series.isin` on a nullable string column: `NaN` is never a
member. -/
def optMemStr (v : Option String) (l : List String) : Bool :=
  match v with
  | some s => l.contains s
  | none => false

/-- Pandas `Series.between(low, high)` (inclusive on both ends): `NaN`
compares false. -/
def ratingBetween (low high : ℚ) (v : Option ℚ) : Bool :=
  match v with
  | some x => decide (low ≤ x ∧ x ≤ high)
  | none => false

/-- Lower-cased characters of a string (Python `str.lower()`). -/
def lowerChars (s : String) : List Char := s.data.map Char.toLower

/-- Whether the first list is a prefix of the second. -/
def isPrefixCL : List Char → List Char → Bool
  | [], _ => true
  | _ :: _, [] => false
  | a :: as2, b :: bs => a == b && isPrefixCL as2 bs

/-- Substring containment on character lists. -/
def isSubCL (needle : List Char) : List Char → Bool
  | [] => needle.isEmpty
  | h :: t => isPrefixCL needle (h :: t) || isSubCL needle t

/-- The route-keyword condition
`df["route"].str.lower().str.contains(keyword, na=False)` for a literal
keyword: case-insensitive substring containment, false on `NaN`. -/
def routeMatches (keyword : String) (v : Option String) : Bool :=
  match v with
  | some s => isSubCL (lowerChars keyword) (lowerChars s)
  | none => false

/-- Operator multiselect: applied only when the selection is nonempty
(Python truthiness of the list). -/
def operatorStage (f : DashFilters) (rows : List Row) : List Row :=
  if f.operator.isEmpty then rows
  else rows.filter (fun r => optMemStr r.operator_name f.operator)

/-- Bus-type multiselect stage. -/
def busTypeStage (f : DashFilters) (rows : List Row) : List Row :=
  if f.bus_type.isEmpty then rows
  else rows.filter (fun r => optMemStr r.bus_type f.bus_type)

/-- Sentiment multiselect stage. -/
def sentimentStage (f : DashFilters) (rows : List Row) : List Row :=
  if f.sentiment.isEmpty then rows
  else rows.filter (fun r => optMemStr r.sentiment f.sentiment)

/-- Rating-range stage: applied unconditionally. -/
def ratingStage (f : DashFilters) (rows : List Row) : List Row :=
  rows.filter (fun r => ratingBetween f.rating_range.1 f.rating_range.2 r.rating)

/-- Route-keyword stage: applied only for a nonempty keyword. -/
def keywordStage (f : DashFilters) (rows : List Row) : List Row :=
  if f.route_keyword.isEmpty then rows
  else rows.filter (fun r => routeMatches f.route_keyword r.route)

/-- Embedding of the dashboard `apply_filters`: the five narrowing steps in
source order. -/
def apply_filters (rows : List Row) (f : DashFilters) : List Row :=
  keywordStage f
    (ratingStage f (sentimentStage f (busTypeStage f (operatorStage f rows))))

/-- C10: `apply_filters` applies the rating-range condition unconditionally
and pandas `between` is false on `NaN`, so for every input table and every
filter selection — including empty multiselects, an empty keyword and the
maximal range `[0, 5]` — every row of the filtered output has a present
rating; a row with absent rating never appears. -/
theorem dash_C10 (rows : List Row) (f : DashFilters) :
    (apply_filters rows f).all (fun r => r.rating.isSome) = true := by
  rw [List.all_eq_true]
  intro r hr
  have hr4 : r ∈ ratingStage f (sentimentStage f (busTypeStage f (operatorStage f rows))) := by
    unfold apply_filters keywordStage at hr
    by_cases hk : f.route_keyword.isEmpty
    · rwa [if_pos hk] at hr
    · rw [if_neg hk] at hr
      exact (List.mem_filter.mp hr).1
  have hpred : ratingBetween f.rating_range.1 f.rating_range.2 r.rating = true := by
    unfold ratingStage at hr4
    exact (List.mem_filter.mp hr4).2
  cases hrat : r.rating with
  | none => rw [hrat] at hpred; simp [ratingBetween] at hpred
  | some x => rfl

/-! ## Database loader (`src/db/load.py`, claims C6 and C7) -/

/-- Persisted `Bus` entity columns (`src/db/schema.py`). -/
structure BusEntity where
  bus_id : String
  operator_name : Option String
  bus_name : Option String
  bus_type : Option String
  route : Option String
  avg_rating : Option ℚ
  rating_count : Option ℤ
deriving DecidableEq

/-- One row of the curated `buses.csv` as read by pandas. -/
structure BusCsvRow where
  bus_id : String
  operator_name : Option String
  bus_name : Option String
  bus_type : Option String
  route : Option String
  avg_rating : Option ℚ
  rating_count : Option ℚ
deriving DecidableEq

/-- Python `int()` on a numeric value truncates toward zero. -/
def pyInt (q : ℚ) : ℤ := if 0 ≤ q then ⌊q⌋ else ⌈q⌉

/-- Column mapping of `load_buses`:
`int(row.rating_count) if pd.notna(row.rating_count) else None`. -/
def busEntityOfRow (r : BusCsvRow) : BusEntity :=
  { bus_id := r.bus_id
    operator_name := r.operator_name
    bus_name := r.bus_name
    bus_type := r.bus_type
    route := r.route
    avg_rating := r.avg_rating
    rating_count := r.rating_count.map pyInt }

/-- One row of the curated `reviews.csv` as read by pandas. -/
structure ReviewCsvRow where
  bus_id : String
  rating : Option ℚ
  review_title : Option String
  review_text : Option String
  review_date : Option String
  sentiment : Option String
  sentiment_score : Option ℚ
deriving DecidableEq

/-- Persisted `Review` entity columns (`src/db/schema.py`). -/
structure ReviewEntity where
  bus_id : String
  rating : Option ℚ
  review_title : Option String
  review_text : Option String
  review_date : Option YMD
  sentiment_label : Option String
  sentiment_score : Option ℚ
deriving DecidableEq

/-- Embedding of the loader helper `parse_date`: `pd.isna` or falsy values
give `None`; everything else goes through
`datetime.strptime(str(value), "%Y-%m-%d")`, whose `ValueError` on an
unparseable string is NOT caught here and propagates. -/
def parse_date (value : Option String) : Except Unit (Option YMD) :=
  match value with
  | none => .ok none
  | some s =>
    if s = "" then .ok none
    else
      match parseIsoFmt s.data with
      | some d => .ok (some d)
      | none => .error ()

/-- Build one `Review` entity from a CSV row (the body of the list
comprehension in `load_reviews`); a date `ValueError` aborts the whole
comprehension. -/
def mkReviewEntity (r : ReviewCsvRow) : Except Unit ReviewEntity :=
  (parse_date r.review_date).map (fun d =>
    { bus_id := r.bus_id
      rating := r.rating
      review_title := r.review_title
      review_text := r.review_text
      review_date := d
      sentiment_label := r.sentiment
      sentiment_score := r.sentiment_score })

/-- Evaluate the review list comprehension left to right; the first
`ValueError` aborts. -/
def buildReviews : List ReviewCsvRow → Except Unit (List ReviewEntity)
  | [] => .ok []
  | r :: rest =>
    match mkReviewEntity r with
    | .error e => .error e
    | .ok ent => (buildReviews rest).map (fun l => ent :: l)

/-- The two persisted tables. -/
structure DBState where
  buses : List BusEntity
  reviews : List ReviewEntity
deriving DecidableEq

/-- SQLAlchemy session state: the committed database, the in-transaction
view, the number of commits issued, and whether the session was closed. -/
structure LoaderSession where
  committed : DBState
  tx : DBState
  commits : ℕ
  closed : Bool
deriving DecidableEq

/-- Error kinds of the loader: database-layer `SQLAlchemyError` (the only
kind the `except` clause catches) and the `ValueError` from date parsing. -/
inductive DBErr where
  | sqlError : DBErr
  | valueError : DBErr
deriving DecidableEq

/-- Embedding of `session.commit()`. -/
def LoaderSession.commit (s : LoaderSession) : LoaderSession :=
  { s with committed := s.tx, commits := s.commits + 1 }

/-- Embedding of `session.rollback()`. -/
def LoaderSession.rollback (s : LoaderSession) : LoaderSession :=
  { s with tx := s.committed }

/-- Embedding of `session.close()` (uncommitted work is never promoted). -/
def LoaderSession.close (s : LoaderSession) : LoaderSession :=
  { s with closed := true }

/-- Embedding of `load_buses`: optional truncate of the `Bus` table inside
the transaction, then `add_all`; `fault` injects a database-layer error. -/
def load_buses (replace : Bool) (rows : List BusCsvRow) (fault : Option DBErr)
    (s : LoaderSession) : LoaderSession × Option DBErr :=
  match fault with
  | some e => (s, some e)
  | none =>
    let s1 := if replace then { s with tx := { s.tx with buses := [] } } else s
    ({ s1 with tx := { s1.tx with buses := s1.tx.buses ++ rows.map busEntityOfRow } },
      none)

/-- Embedding of `load_reviews`: optional truncate, then the entity
comprehension (whose date `ValueError` surfaces after the truncate already
ran), then `add_all`. -/
def load_reviews (replace : Bool) (rows : List ReviewCsvRow) (fault : Option DBErr)
    (s : LoaderSession) : LoaderSession × Option DBErr :=
  match fault with
  | some e => (s, some e)
  | none =>
    let s1 := if replace then { s with tx := { s.tx with reviews := [] } } else s
    match buildReviews rows with
    | .error _ => (s1, some .valueError)
    | .ok ents =>
      ({ s1 with tx := { s1.tx with reviews := s1.tx.reviews ++ ents } }, none)

/-- Error path of the loader `main`: `except SQLAlchemyError` rolls back
(only that kind), `finally` closes the session, and the error re-raises. -/
def finalizeSession (e : DBErr) (s : LoaderSession) : LoaderSession :=
  (if e = DBErr.sqlError then s.rollback else s).close

/-- Embedding of the loader `main` transaction block: load buses, load
reviews, commit; on error rollback (database errors only) and re-raise; the
session is closed on every path. -/
def mainLoad (replace : Bool) (busRows : List BusCsvRow)
    (revRows : List ReviewCsvRow) (fB fR : Option DBErr) (s0 : LoaderSession) :
    Option DBErr × LoaderSession :=
  match load_buses replace busRows fB s0 with
  | (s1, some e) => (some e, finalizeSession e s1)
  | (s1, none) =>
    match load_reviews replace revRows fR s1 with
    | (s2, some e) => (some e, finalizeSession e s2)
    | (s2, none) => (none, s2.commit.close)

/-- C6: the loader is atomic per invocation.  The session is closed on
every outcome; when any injected database-layer error (or the date
`ValueError`) occurs during either half, the result re-raises it and the
committed state and commit count are unchanged (for a database-layer error
the transaction view is also rolled back to the pre-invocation committed
state); on success exactly one commit happens, promoting the transaction
view. -/
theorem loader_C6 (replace : Bool) (busRows : List BusCsvRow)
    (revRows : List ReviewCsvRow) (fB fR : Option DBErr) (s0 : LoaderSession) :
    (mainLoad replace busRows revRows fB fR s0).2.closed = true ∧
    ((mainLoad replace busRows revRows fB fR s0).1.isSome = true →
      (mainLoad replace busRows revRows fB fR s0).2.committed = s0.committed ∧
      (mainLoad replace busRows revRows fB fR s0).2.commits = s0.commits) ∧
    ((mainLoad replace busRows revRows fB fR s0).1 = some DBErr.sqlError →
      (mainLoad replace busRows revRows fB fR s0).2.tx = s0.committed) ∧
    (∀ e, fB = some e → (mainLoad replace busRows revRows fB fR s0).1 = some e) ∧
    (∀ e, fB = none → fR = some e →
      (mainLoad replace busRows revRows fB fR s0).1 = some e) ∧
    ((mainLoad replace busRows revRows fB fR s0).1 = none →
      (mainLoad replace busRows revRows fB fR s0).2.commits = s0.commits + 1 ∧
      (mainLoad replace busRows revRows fB fR s0).2.committed =
        (mainLoad replace busRows revRows fB fR s0).2.tx) := by
  cases fB with
  | some e =>
    cases e <;>
      simp [mainLoad, load_buses, finalizeSession, LoaderSession.close,
        LoaderSession.rollback]
  | none =>
    cases fR with
    | some e =>
      cases replace <;> cases e <;>
        simp [mainLoad, load_buses, load_reviews, finalizeSession,
          LoaderSession.close, LoaderSession.rollback]
    | none =>
      cases hb : buildReviews revRows with
      | error e =>
        cases replace <;>
          simp [mainLoad, load_buses, load_reviews, hb, finalizeSession,
            LoaderSession.close, LoaderSession.rollback]
      | ok ents =>
        cases replace <;>
          simp [mainLoad, load_buses, load_reviews, hb, LoaderSession.commit,
            LoaderSession.close]

/-- Empty starting session used by the loader witnesses. -/
def initSession : LoaderSession :=
  { committed := { buses := [], reviews := [] }
    tx := { buses := [], reviews := [] }
    commits := 0
    closed := false }

/-- C6 witness: an injected database-layer error during the bus half
re-raises, leaves the committed state untouched, and closes the session. -/
theorem loader_C6_witness :
    (mainLoad false [] [] (some DBErr.sqlError) none initSession).1 =
      some DBErr.sqlError ∧
    (mainLoad false [] [] (some DBErr.sqlError) none initSession).2.closed = true ∧
    (mainLoad false [] [] (some DBErr.sqlError) none initSession).2.committed =
      initSession.committed := by
  have h := loader_C6 false [] [] (some DBErr.sqlError) none initSession
  have h1 := h.2.2.2.1 DBErr.sqlError rfl
  refine ⟨h1, h.1, ?_⟩
  exact (h.2.1 (by rw [h1]; rfl)).1

/-- Review CSV row whose date is a non-blank unparseable string. -/
def badReviewRow : ReviewCsvRow :=
  { bus_id := "B1"
    rating := none
    review_title := none
    review_text := none
    review_date := some "not-a-date"
    sentiment := none
    sentiment_score := none }

/-- C7 counterexample: a review row whose `review_date` is the non-blank
unparseable string `"not-a-date"` does not produce an absent stored date —
`datetime.strptime` raises a `ValueError` that `parse_date` does not catch,
so the whole loader invocation fails instead. -/
theorem loader_C7_cex :
    (mainLoad false [] [badReviewRow] none none initSession).1 =
      some DBErr.valueError ∧
    parse_date (some "not-a-date") = .error () := ⟨rfl, rfl⟩

/-- C7 (amended): a review-date value that is missing or blank is stored as
an absent date; a well-formed `YYYY-MM-DD` string is stored as the
corresponding calendar date on the built `Review` entity; but a non-blank
string that does not parse as `YYYY-MM-DD` raises a `ValueError` (failing
the load) rather than yielding an absent date. -/
theorem loader_C7 (y m d : ℕ) (hv : validYMD y m d = true) (s : String)
    (hbad : parseIsoFmt s.data = none) (hne : s ≠ "") :
    parse_date none = .ok none ∧
    parse_date (some "") = .ok none ∧
    parse_date (some (fmtIsoYMD ⟨y, m, d⟩)) = .ok (some ⟨y, m, d⟩) ∧
    parse_date (some s) = .error () ∧
    (∀ r : ReviewCsvRow, r.review_date = some (fmtIsoYMD ⟨y, m, d⟩) →
      mkReviewEntity r = .ok
        { bus_id := r.bus_id
          rating := r.rating
          review_title := r.review_title
          review_text := r.review_text
          review_date := some ⟨y, m, d⟩
          sentiment_label := r.sentiment
          sentiment_score := r.sentiment_score }) := by
  have hiso : parse_date (some (fmtIsoYMD ⟨y, m, d⟩)) = .ok (some ⟨y, m, d⟩) := by
    have hne2 : fmtIsoYMD ⟨y, m, d⟩ ≠ "" := mk_ne_empty _ _
    simp [parse_date, hne2, parseIso_fmt_roundtrip ⟨y, m, d⟩ hv]
  refine ⟨rfl, rfl, hiso, ?_, ?_⟩
  · simp [parse_date, hne, hbad]
  · intro r hr
    simp [mkReviewEntity, hr, hiso, Except.map]

/-- C7 witness: the amended theorem at the concrete date 2024-01-12 and the
concrete unparseable string. -/
theorem loader_C7_witness :
    parse_date (some (fmtIsoYMD ⟨2024, 1, 12⟩)) = .ok (some ⟨2024, 1, 12⟩) ∧
    parse_date (some "not-a-date!") = .error () := by
  have h := loader_C7 2024 1 12 (by decide) "not-a-date!" (by decide) (by decide)
  exact ⟨h.2.2.1, h.2.2.2.1⟩

end RedBus
